import Mathlib

/-!
Shallow embedding of `src/wikimedia_downloader.py` and verification of the
specification's claims about it.

The script performs blocking I/O (HTTP requests, file writes, `time.sleep`).
We embed it by making those effects explicit:
  * the filesystem is an association list from paths to file entries;
  * the outcome of each HTTP download is an oracle value (`NetResult`);
  * the search API response is an abstract value (`ApiResponse`);
  * `time.sleep(1)` calls are counted in a ghost field `sleeps`, and loop
    iterations that enter the body are counted in a ghost field `examined`.
All definitions are translated from the Python source, function by function.
-/

set_option autoImplicit false

namespace WikimediaDownloader

/-- A file on disk: a binary download of a given size in bytes, or a text
file (the markdown report) with its contents. -/
inductive Entry where
  | bin (size : Nat)
  | text (s : String)
deriving Repr, DecidableEq

/-- The filesystem: an association list from path to entry.  `fsSet`
keeps at most one entry per path. -/
structure FS where
  files : List (String × Entry)
deriving Repr, DecidableEq

/-- Look up the entry at a path. -/
def fsGet (fs : FS) (p : String) : Option Entry :=
  (fs.files.find? (fun q => q.1 == p)).map (·.2)

/-- Write (create or overwrite) the entry at a path, as `open(path, 'w'/'wb')`
followed by writes does. -/
def fsSet (fs : FS) (p : String) (e : Entry) : FS :=
  ⟨(p, e) :: fs.files.filter (fun q => !(q.1 == p))⟩

/-- `if os.path.exists(p): os.remove(p)` — removing a path that is absent is
a no-op. -/
def fsRemove (fs : FS) (p : String) : FS :=
  ⟨fs.files.filter (fun q => !(q.1 == p))⟩

/-- The outcome of one streamed HTTP GET of a binary resource, as seen by
`download_file`:
  * `ok size` — the whole body, `size` bytes, is received and written;
  * `failBeforeOpen` — an exception (connection error, bad HTTP status)
    is raised before the destination file is opened;
  * `failAfterWrite part` — an exception is raised mid-stream after the
    file was opened and `part` bytes were written. -/
inductive NetResult where
  | ok (size : Nat)
  | failBeforeOpen
  | failAfterWrite (part : Nat)
deriving Repr, DecidableEq

/-- `download_file(url, filepath)` (lines 69–97).  The `url` argument only
selects the oracle outcome `net`, so it is not a separate parameter here.
On success the body is written to `filepath` (overwriting, as `open(_, 'wb')`
does) and `True` is returned.  On any exception the partially written file at
`filepath` is removed if it exists, and `False` is returned. -/
def download_file (net : NetResult) (fs : FS) (filepath : String) : Bool × FS :=
  match net with
  | .ok size => (true, fsSet fs filepath (.bin size))
  | .failBeforeOpen => (false, fsRemove fs filepath)
  | .failAfterWrite part => (false, fsRemove (fsSet fs filepath (.bin part)) filepath)

@[simp]
theorem fsGet_fsRemove (fs : FS) (p : String) : fsGet (fsRemove fs p) p = none := by
  unfold fsGet fsRemove
  induction fs.files with
  | nil => rfl
  | cons q l ih =>
    by_cases h : q.1 == p
    · simp only [List.filter, h]
      exact ih
    · simp only [List.filter, h, List.find?]
      exact ih

@[simp]
theorem fsGet_fsSet (fs : FS) (p : String) (e : Entry) :
    fsGet (fsSet fs p e) p = some e := by
  simp [fsGet, fsSet, List.find?]

theorem fsGet_fsSet_ne (fs : FS) (p q : String) (e : Entry) (h : q ≠ p) :
    fsGet (fsSet fs p e) q = fsGet fs q := by
  unfold fsGet fsSet
  have hpq : (p == q) = false := by
    simp only [beq_eq_false_iff_ne]
    exact fun hc => h hc.symm
  simp only [List.find?, hpq]
  induction fs.files with
  | nil => rfl
  | cons r l ih =>
    by_cases hr : r.1 == q
    · have hrp : (r.1 == p) = false := by
        simp only [beq_eq_false_iff_ne]
        intro hc
        exact h ((eq_of_beq hr).symm.trans hc)
      simp [List.filter, hrp, List.find?, hr]
    · by_cases hrp : r.1 == p
      · simpa [List.filter, hrp, List.find?, hr] using ih
      · simpa [List.filter, hrp, List.find?, hr] using ih

/-- `os.path.getsize`, on the entries of our model (only ever applied to
paths that exist, holding binary downloads). -/
def getsize (fs : FS) (p : String) : Nat :=
  match fsGet fs p with
  | some (.bin n) => n
  | some (.text s) => s.length
  | none => 0

/-- C1: whenever `download_file` fails (returns `False`), it has deleted any
partially written file at the destination path, so no file exists there
afterwards. -/
theorem download_file_failure_cleans_up (net : NetResult) (fs : FS) (p : String)
    (hfail : (download_file net fs p).1 = false) :
    fsGet (download_file net fs p).2 p = none := by
  cases net with
  | ok size => simp [download_file] at hfail
  | failBeforeOpen => simp [download_file]
  | failAfterWrite part => simp [download_file]

/-- Witness for C1 at a concrete input: a mid-stream failure over a
filesystem that already holds 7 bytes at the path leaves no file there. -/
theorem download_file_failure_cleans_up_witness :
    (download_file (NetResult.failAfterWrite 3) ⟨[("downloads/t/a.jpg", Entry.bin 7)]⟩
        "downloads/t/a.jpg").1 = false ∧
    fsGet (download_file (NetResult.failAfterWrite 3) ⟨[("downloads/t/a.jpg", Entry.bin 7)]⟩
        "downloads/t/a.jpg").2 "downloads/t/a.jpg" = none :=
  ⟨by decide,
   download_file_failure_cleans_up (NetResult.failAfterWrite 3)
     ⟨[("downloads/t/a.jpg", Entry.bin 7)]⟩ "downloads/t/a.jpg" (by decide)⟩

/-! ## Search results and the metadata fetcher -/

/-- One `imageinfo` record of a search result page.  The Python code only
reads the `'url'` key (`'url' not in image_info` / `image_info['url']`); a
dictionary without it — including the empty-dict default — is modelled by
`url = none`. -/
structure ImageInfo where
  url : Option String
deriving Repr, DecidableEq

/-- One page value from `data['query']['pages']`.  `title` is
`result.get('title', '')`, so a missing title is the empty string;
`imageinfo` is `none` when the `'imageinfo'` key is absent (the code then
falls back to `[{}]`) and `some l` when present with list `l` (an empty `l`
makes `[0]` raise `IndexError`, caught by the per-candidate handler). -/
structure SearchResult where
  title : String
  imageinfo : Option (List ImageInfo)
deriving Repr, DecidableEq

/-- The search API response as `search_wikimedia` observes it:
  * `transportError` — the request, `raise_for_status` or `.json()` raised;
  * `noQuery` — JSON decoded but `'query'` is absent;
  * `withPages pages` — `data['query'].get('pages', {})` holds these values
    (in order); an empty dict is `withPages []`. -/
inductive ApiResponse where
  | transportError
  | noQuery
  | withPages (pages : List SearchResult)
deriving Repr, DecidableEq

/-- `search_wikimedia(search_term)` (lines 31–67): returns the page values of
the response, and `[]` on a transport error, a missing `'query'` member, or
an empty `pages` dict. -/
def search_wikimedia (resp : ApiResponse) : List SearchResult :=
  match resp with
  | .transportError => []
  | .noQuery => []
  | .withPages pages => pages

/-! ## Title and path sanitisation -/

/-- Python's `title.replace('File:', '')`: remove every occurrence of the
substring `"File:"`, scanning left to right (after a match the scan resumes
past the removed occurrence; with fewer than five characters left no match
is possible and the rest is copied). -/
def removeFileCol : List Char → List Char
  | c1 :: c2 :: c3 :: c4 :: c5 :: rest =>
    if c1 = 'F' ∧ c2 = 'i' ∧ c3 = 'l' ∧ c4 = 'e' ∧ c5 = ':' then
      removeFileCol rest
    else
      c1 :: removeFileCol (c2 :: c3 :: c4 :: c5 :: rest)
  | l => l

/-- `title.replace('File:', '')` on strings (line 119). -/
def stripFileCol (s : String) : String :=
  ⟨removeFileCol s.data⟩

/-- The character substitution of `s.replace(' ', '_')`. -/
def spaceToUnderscore (c : Char) : Char :=
  if c = ' ' then '_' else c

/-- Python's `s.replace(' ', '_')` (lines 102 and 131).  A single-character
pattern never overlaps itself, so the replacement is character-wise. -/
def replaceSpaces (s : String) : String :=
  ⟨s.data.map spaceToUnderscore⟩

/-- The safe on-disk filename the code derives from a raw result title:
`result.get('title', '').replace('File:', '')` then `.replace(' ', '_')`. -/
def safeFilenameOf (title : String) : String :=
  replaceSpaces (stripFileCol title)

/-- The download directory for a search term:
`Path.cwd() / "downloads" / search_term.replace(" ", "_")` (line 102),
relative to the working directory. -/
def downloadDirOf (term : String) : String :=
  "downloads/" ++ replaceSpaces term

/-! ## The batch orchestrator -/

/-- One entry of the `downloaded` list (lines 144–148).  The Python dict
stores the size pre-formatted as a string; here the byte count is kept and
the report writer formats it, producing the same document. -/
structure DownloadRecord where
  filename : String
  url : String
  size : Nat
deriving Repr, DecidableEq

/-- Mutable state of the `for result in results:` loop, plus two ghost
counters: `sleeps` counts executed `time.sleep(1)` calls and `examined`
counts iterations that entered the loop body (did not `break`). -/
structure RunState where
  fs : FS
  downloaded : List DownloadRecord
  sleeps : Nat
  examined : Nat
deriving Repr, DecidableEq

/-- The body of the loop in `process_images` for one candidate
(lines 118–155).  Each `continue` in the Python body — missing title,
missing imageinfo/url, `IndexError` from `imageinfo[0]`, and the empty-file
discard — jumps past the `time.sleep(1)` at the bottom of the loop, so only
the two paths that fall through the `if download_file(...)` statement (a
failed download, and a recorded success) sleep. -/
def processCandidate (dir : String) (r : SearchResult) (net : NetResult)
    (st : RunState) : RunState :=
  let title := stripFileCol r.title
  if title = "" then
    { st with examined := st.examined + 1 }
  else
    match r.imageinfo with
    | none =>
      { st with examined := st.examined + 1 }
    | some [] =>
      { st with examined := st.examined + 1 }
    | some (info :: _) =>
      match info.url with
      | none =>
        { st with examined := st.examined + 1 }
      | some url =>
        let filepath := dir ++ "/" ++ replaceSpaces title
        let res := download_file net st.fs filepath
        if res.1 then
          let file_size := getsize res.2 filepath
          if file_size = 0 then
            { st with fs := fsRemove res.2 filepath, examined := st.examined + 1 }
          else
            { fs := res.2,
              downloaded := st.downloaded ++ [⟨replaceSpaces title, url, file_size⟩],
              sleeps := st.sleeps + 1,
              examined := st.examined + 1 }
        else
          { st with fs := res.2, sleeps := st.sleeps + 1, examined := st.examined + 1 }

/-- The `for result in results:` loop (lines 114–155).  The oracle `net`
assigns each candidate (by position) its download outcome; candidates that
are skipped never consume theirs.  `break` fires when `max_images`
successes have been collected. -/
def processLoop (dir : String) (maxImages : Nat) (net : Nat → NetResult) :
    List (Nat × SearchResult) → RunState → RunState
  | [], st => st
  | (i, r) :: rest, st =>
    if maxImages ≤ st.downloaded.length then st
    else processLoop dir maxImages net rest (processCandidate dir r (net i) st)

/-- Models `f"{file_size/1024/1024:.1f} MB"` with integer arithmetic (tenths
of a MiB, rounded to nearest); the claims do not depend on the exact float
rounding. -/
def formatMB (bytes : Nat) : String :=
  let tenths := (bytes * 10 + 524288) / 1048576
  toString (tenths / 10) ++ "." ++ toString (tenths % 10) ++ " MB"

/-- The per-record writes of the report loop (lines 162–165). -/
def report_body : List DownloadRecord → String
  | [] => ""
  | rec :: rest =>
    "## " ++ rec.filename ++ "\n" ++
    "- Source: " ++ rec.url ++ "\n" ++
    "- Size: " ++ formatMB rec.size ++ "\n\n" ++ report_body rest

/-- The full markdown report (lines 160–165): heading then one section per
record, in order. -/
def generate_report (records : List DownloadRecord) : String :=
  "# Downloaded Images Report\n\n" ++ report_body records

/-- The outcome of one `process_images` run: the returned count, the final
`downloaded` list, the final filesystem, the ghost counters, and the report
contents (`none` when no report was written). -/
structure RunResult where
  count : Nat
  downloaded : List DownloadRecord
  fs : FS
  sleeps : Nat
  examined : Nat
  report : Option String
deriving Repr, DecidableEq

/-- The tail of `process_images` after the loop (lines 157–168): if any
download succeeded (`if downloaded:`), write the markdown report into the
download directory (overwriting any file at that path) and return the count
of successes. -/
def finishRun (dir : String) (fin : RunState) : RunResult :=
  if fin.downloaded.isEmpty then
    { count := fin.downloaded.length, downloaded := fin.downloaded,
      fs := fin.fs, sleeps := fin.sleeps, examined := fin.examined,
      report := none }
  else
    { count := fin.downloaded.length, downloaded := fin.downloaded,
      fs := fsSet fin.fs (dir ++ "/download_report.md")
        (.text (generate_report fin.downloaded)),
      sleeps := fin.sleeps, examined := fin.examined,
      report := some (generate_report fin.downloaded) }

/-- `process_images(search_term, max_images)` (lines 99–168), with the
environment explicit: `resp` is what the search request returns, `net i`
is the outcome of the download attempted for candidate `i`, and `fs0` is
the filesystem the run starts from.  Directory creation (`mkdir`) has no
observable effect in the file model and is omitted. -/
def process_images (term : String) (maxImages : Nat) (resp : ApiResponse)
    (net : Nat → NetResult) (fs0 : FS) : RunResult :=
  let dir := downloadDirOf term
  let results := search_wikimedia resp
  if results.isEmpty then
    { count := 0, downloaded := [], fs := fs0, sleeps := 0, examined := 0,
      report := none }
  else
    finishRun dir (processLoop dir maxImages net results.enum
      { fs := fs0, downloaded := [], sleeps := 0, examined := 0 })

/-- The CLI max-count handling (lines 176–181): `int(...)` failure (`none`)
defaults to 10, otherwise `min(max(1, n), 500)`. -/
def parse_max_images (input : Option Int) : Int :=
  match input with
  | none => 10
  | some n => min (max 1 n) 500

/-! ## Per-candidate characterisations -/

/-- Exactly the candidates for which the code reaches `time.sleep(1)`:
the download was attempted (title, imageinfo and url all present) and its
outcome was either a failure or a recorded non-empty success — every
`continue` skips the sleep. -/
def candidateSleeps (r : SearchResult) (net : NetResult) : Bool :=
  if stripFileCol r.title = "" then false
  else
    match r.imageinfo with
    | none => false
    | some [] => false
    | some (info :: _) =>
      match info.url with
      | none => false
      | some _ =>
        match net with
        | .ok 0 => false
        | .ok (_ + 1) => true
        | .failBeforeOpen => true
        | .failAfterWrite _ => true

/-- Exactly the candidates for which a `DownloadRecord` is appended: the
download was attempted and succeeded with a non-empty body. -/
def candidateRecorded (r : SearchResult) (net : NetResult) : Bool :=
  if stripFileCol r.title = "" then false
  else
    match r.imageinfo with
    | none => false
    | some [] => false
    | some (info :: _) =>
      match info.url with
      | none => false
      | some _ =>
        match net with
        | .ok (_ + 1) => true
        | _ => false

theorem processCandidate_examined (dir : String) (r : SearchResult)
    (net : NetResult) (st : RunState) :
    (processCandidate dir r net st).examined = st.examined + 1 := by
  by_cases ht : stripFileCol r.title = ""
  · simp [processCandidate, ht]
  · rcases hi : r.imageinfo with _ | (_ | ⟨info, rest⟩)
    · simp [processCandidate, ht, hi]
    · simp [processCandidate, ht, hi]
    · rcases hu : info.url with _ | url
      · simp [processCandidate, ht, hi, hu]
      · cases net with
        | ok size =>
          cases size with
          | zero => simp [processCandidate, ht, hi, hu, download_file, getsize]
          | succ k => simp [processCandidate, ht, hi, hu, download_file, getsize]
        | failBeforeOpen => simp [processCandidate, ht, hi, hu, download_file]
        | failAfterWrite part => simp [processCandidate, ht, hi, hu, download_file]

theorem processCandidate_sleeps (dir : String) (r : SearchResult)
    (net : NetResult) (st : RunState) :
    (processCandidate dir r net st).sleeps
      = st.sleeps + (candidateSleeps r net).toNat := by
  by_cases ht : stripFileCol r.title = ""
  · simp [processCandidate, candidateSleeps, ht]
  · rcases hi : r.imageinfo with _ | (_ | ⟨info, rest⟩)
    · simp [processCandidate, candidateSleeps, ht, hi]
    · simp [processCandidate, candidateSleeps, ht, hi]
    · rcases hu : info.url with _ | url
      · simp [processCandidate, candidateSleeps, ht, hi, hu]
      · cases net with
        | ok size =>
          cases size with
          | zero =>
            simp [processCandidate, candidateSleeps, ht, hi, hu, download_file,
              getsize]
          | succ k =>
            simp [processCandidate, candidateSleeps, ht, hi, hu, download_file,
              getsize]
        | failBeforeOpen =>
          simp [processCandidate, candidateSleeps, ht, hi, hu, download_file]
        | failAfterWrite part =>
          simp [processCandidate, candidateSleeps, ht, hi, hu, download_file]

theorem processCandidate_downloaded_length (dir : String) (r : SearchResult)
    (net : NetResult) (st : RunState) :
    (processCandidate dir r net st).downloaded.length
      = st.downloaded.length + (candidateRecorded r net).toNat := by
  by_cases ht : stripFileCol r.title = ""
  · simp [processCandidate, candidateRecorded, ht]
  · rcases hi : r.imageinfo with _ | (_ | ⟨info, rest⟩)
    · simp [processCandidate, candidateRecorded, ht, hi]
    · simp [processCandidate, candidateRecorded, ht, hi]
    · rcases hu : info.url with _ | url
      · simp [processCandidate, candidateRecorded, ht, hi, hu]
      · cases net with
        | ok size =>
          cases size with
          | zero =>
            simp [processCandidate, candidateRecorded, ht, hi, hu, download_file,
              getsize]
          | succ k =>
            simp [processCandidate, candidateRecorded, ht, hi, hu, download_file,
              getsize]
        | failBeforeOpen =>
          simp [processCandidate, candidateRecorded, ht, hi, hu, download_file]
        | failAfterWrite part =>
          simp [processCandidate, candidateRecorded, ht, hi, hu, download_file]

theorem processCandidate_mem_downloaded (dir : String) (r : SearchResult)
    (net : NetResult) (st : RunState) (rec : DownloadRecord)
    (hmem : rec ∈ (processCandidate dir r net st).downloaded) :
    rec ∈ st.downloaded ∨ 0 < rec.size := by
  by_cases ht : stripFileCol r.title = ""
  · simp only [processCandidate, ht, if_true] at hmem
    exact Or.inl hmem
  · rcases hi : r.imageinfo with _ | (_ | ⟨info, rest⟩)
    · simp only [processCandidate, ht, hi, if_false] at hmem
      exact Or.inl hmem
    · simp only [processCandidate, ht, hi, if_false] at hmem
      exact Or.inl hmem
    · rcases hu : info.url with _ | url
      · simp only [processCandidate, ht, hi, hu, if_false] at hmem
        exact Or.inl hmem
      · cases net with
        | ok size =>
          cases size with
          | zero =>
            simp [processCandidate, ht, hi, hu, download_file, getsize] at hmem
            exact Or.inl hmem
          | succ k =>
            simp [processCandidate, ht, hi, hu, download_file, getsize] at hmem
            rcases hmem with h | h
            · exact Or.inl h
            · right
              rw [h]
              exact Nat.succ_pos k
        | failBeforeOpen =>
          simp [processCandidate, ht, hi, hu, download_file] at hmem
          exact Or.inl hmem
        | failAfterWrite part =>
          simp [processCandidate, ht, hi, hu, download_file] at hmem
          exact Or.inl hmem

/-! ## Loop invariants -/

theorem processLoop_length_le_max (dir : String) (maxImages : Nat)
    (net : Nat → NetResult) (l : List (Nat × SearchResult)) (st : RunState)
    (h : st.downloaded.length ≤ maxImages) :
    (processLoop dir maxImages net l st).downloaded.length ≤ maxImages := by
  induction l generalizing st with
  | nil => simpa [processLoop] using h
  | cons p rest ih =>
    obtain ⟨i, r⟩ := p
    by_cases hb : maxImages ≤ st.downloaded.length
    · simpa [processLoop, hb] using h
    · simp only [processLoop, hb, if_false]
      apply ih
      rw [processCandidate_downloaded_length]
      have h1 : (candidateRecorded r (net i)).toNat ≤ 1 :=
        Bool.toNat_le (candidateRecorded r (net i))
      omega

theorem processLoop_length_le (dir : String) (maxImages : Nat)
    (net : Nat → NetResult) (l : List (Nat × SearchResult)) (st : RunState) :
    (processLoop dir maxImages net l st).downloaded.length
      ≤ st.downloaded.length + l.length := by
  induction l generalizing st with
  | nil => simp [processLoop]
  | cons p rest ih =>
    obtain ⟨i, r⟩ := p
    by_cases hb : maxImages ≤ st.downloaded.length
    · simp [processLoop, hb]
    · simp only [processLoop, hb, if_false]
      have h2 := ih (processCandidate dir r (net i) st)
      rw [processCandidate_downloaded_length] at h2
      have h1 : (candidateRecorded r (net i)).toNat ≤ 1 :=
        Bool.toNat_le (candidateRecorded r (net i))
      simp only [List.length_cons]
      omega

theorem processLoop_mem_downloaded (dir : String) (maxImages : Nat)
    (net : Nat → NetResult) (l : List (Nat × SearchResult)) (st : RunState)
    (rec : DownloadRecord)
    (hmem : rec ∈ (processLoop dir maxImages net l st).downloaded) :
    rec ∈ st.downloaded ∨ 0 < rec.size := by
  induction l generalizing st with
  | nil => exact Or.inl (by simpa [processLoop] using hmem)
  | cons p rest ih =>
    obtain ⟨i, r⟩ := p
    by_cases hb : maxImages ≤ st.downloaded.length
    · exact Or.inl (by simpa [processLoop, hb] using hmem)
    · simp only [processLoop, hb, if_false] at hmem
      rcases ih _ hmem with h | h
      · exact processCandidate_mem_downloaded dir r (net i) st rec h
      · exact Or.inr h

/-- The initial loop state of a run. -/
def initState (fs0 : FS) : RunState :=
  { fs := fs0, downloaded := [], sleeps := 0, examined := 0 }

theorem finishRun_downloaded (dir : String) (fin : RunState) :
    (finishRun dir fin).downloaded = fin.downloaded := by
  unfold finishRun
  split <;> rfl

theorem finishRun_count (dir : String) (fin : RunState) :
    (finishRun dir fin).count = fin.downloaded.length := by
  unfold finishRun
  split <;> rfl

theorem process_images_downloaded_eq (term : String) (maxImages : Nat)
    (resp : ApiResponse) (net : Nat → NetResult) (fs0 : FS) :
    (process_images term maxImages resp net fs0).downloaded
      = if (search_wikimedia resp).isEmpty then []
        else (processLoop (downloadDirOf term) maxImages net
          (search_wikimedia resp).enum (initState fs0)).downloaded := by
  by_cases hres : (search_wikimedia resp).isEmpty
  · simp [process_images, hres]
  · simp only [process_images, hres, Bool.false_eq_true, if_false, initState]
    exact finishRun_downloaded _ _

theorem process_images_count_eq (term : String) (maxImages : Nat)
    (resp : ApiResponse) (net : Nat → NetResult) (fs0 : FS) :
    (process_images term maxImages resp net fs0).count
      = (process_images term maxImages resp net fs0).downloaded.length := by
  by_cases hres : (search_wikimedia resp).isEmpty
  · simp [process_images, hres]
  · simp only [process_images, hres, Bool.false_eq_true, if_false, initState]
    rw [finishRun_count, finishRun_downloaded]

/-- C2: the returned count equals the number of `DownloadRecord`s collected,
which is at most `max_count` and at most the number of search results; the
loop stops (`break`) once `max_count` successes are collected, and a
candidate that is not recorded (skipped, failed, or discarded as empty)
leaves the number of collected records unchanged, so it does not count
against the cap. -/
theorem process_images_download_cap (term : String) (maxImages : Nat)
    (resp : ApiResponse) (net : Nat → NetResult) (fs0 : FS) :
    (process_images term maxImages resp net fs0).count
      = (process_images term maxImages resp net fs0).downloaded.length ∧
    (process_images term maxImages resp net fs0).downloaded.length ≤ maxImages ∧
    (process_images term maxImages resp net fs0).downloaded.length
      ≤ (search_wikimedia resp).length ∧
    (∀ (dir : String) (i : Nat) (r : SearchResult)
        (rest : List (Nat × SearchResult)) (st : RunState),
        maxImages ≤ st.downloaded.length →
        processLoop dir maxImages net ((i, r) :: rest) st = st) ∧
    (∀ (dir : String) (r : SearchResult) (n : NetResult) (st : RunState),
        candidateRecorded r n = false →
        (processCandidate dir r n st).downloaded.length
          = st.downloaded.length) := by
  refine ⟨process_images_count_eq term maxImages resp net fs0, ?_, ?_, ?_, ?_⟩
  · rw [process_images_downloaded_eq]
    split
    · simp
    · exact processLoop_length_le_max _ _ _ _ _ (Nat.zero_le _)
  · rw [process_images_downloaded_eq]
    split
    · simp
    · have h := processLoop_length_le (downloadDirOf term) maxImages net
        (search_wikimedia resp).enum (initState fs0)
      simpa [initState, List.enum_length] using h
  · intro dir i r rest st hst
    simp [processLoop, hst]
  · intro dir r n st hrec
    rw [processCandidate_downloaded_length, hrec]
    rfl

/-- Witness for C2: a run with one good candidate and `max_count = 1`
collects one record; a loop at its cap ignores further candidates; a
skipped candidate leaves the record count unchanged. -/
theorem process_images_download_cap_witness :
    (process_images "t" 1 (ApiResponse.withPages [⟨"File:a b.jpg", some [⟨some "u"⟩]⟩])
        (fun _ => NetResult.ok 4) ⟨[]⟩).downloaded.length ≤ 1 ∧
    processLoop "d" 0 (fun _ => NetResult.ok 4) [(0, ⟨"x", none⟩)] ⟨⟨[]⟩, [], 0, 0⟩
      = ⟨⟨[]⟩, [], 0, 0⟩ ∧
    (processCandidate "d" ⟨"", none⟩ NetResult.failBeforeOpen
        ⟨⟨[]⟩, [], 0, 0⟩).downloaded.length
      = (⟨⟨[]⟩, [], 0, 0⟩ : RunState).downloaded.length :=
  ⟨(process_images_download_cap "t" 1
      (ApiResponse.withPages [⟨"File:a b.jpg", some [⟨some "u"⟩]⟩])
      (fun _ => NetResult.ok 4) ⟨[]⟩).2.1,
   (process_images_download_cap "t" 0 ApiResponse.noQuery
      (fun _ => NetResult.ok 4) ⟨[]⟩).2.2.2.1 "d" 0 ⟨"x", none⟩ [] ⟨⟨[]⟩, [], 0, 0⟩
      (by decide),
   (process_images_download_cap "t" 0 ApiResponse.noQuery
      (fun _ => NetResult.failBeforeOpen) ⟨[]⟩).2.2.2.2 "d" ⟨"", none⟩
      NetResult.failBeforeOpen ⟨⟨[]⟩, [], 0, 0⟩ (by decide)⟩

/-- C3: every collected `DownloadRecord` is for a file whose size on disk
after the download is strictly positive; a reported-successful download of
an empty body is deleted from disk, appends no record, and so does not
count toward the cap. -/
theorem process_images_records_nonempty (term : String) (maxImages : Nat)
    (resp : ApiResponse) (net : Nat → NetResult) (fs0 : FS) :
    (∀ rec ∈ (process_images term maxImages resp net fs0).downloaded,
        0 < rec.size) ∧
    (∀ (dir : String) (r : SearchResult) (st : RunState) (info : ImageInfo)
        (rest : List ImageInfo) (url : String),
        stripFileCol r.title ≠ "" →
        r.imageinfo = some (info :: rest) →
        info.url = some url →
        (processCandidate dir r (NetResult.ok 0) st).downloaded = st.downloaded ∧
        fsGet (processCandidate dir r (NetResult.ok 0) st).fs
          (dir ++ "/" ++ replaceSpaces (stripFileCol r.title)) = none) := by
  constructor
  · intro rec hmem
    rw [process_images_downloaded_eq] at hmem
    split at hmem
    · simp at hmem
    · rcases processLoop_mem_downloaded _ _ _ _ _ _ hmem with h | h
      · simp [initState] at h
      · exact h
  · intro dir r st info rest url ht hi hu
    constructor
    · simp [processCandidate, ht, hi, hu, download_file, getsize]
    · simp [processCandidate, ht, hi, hu, download_file, getsize]

/-- Witness for C3: the record of a successful 4-byte download has positive
size, and a 0-byte success is discarded from disk with no record. -/
theorem process_images_records_nonempty_witness :
    (0 : Nat) < (DownloadRecord.mk "a_b.jpg" "u" 4).size ∧
    (processCandidate "d" ⟨"File:a b.jpg", some [⟨some "u"⟩]⟩ (NetResult.ok 0)
        ⟨⟨[]⟩, [], 0, 0⟩).downloaded = ([] : List DownloadRecord) ∧
    fsGet (processCandidate "d" ⟨"File:a b.jpg", some [⟨some "u"⟩]⟩ (NetResult.ok 0)
        ⟨⟨[]⟩, [], 0, 0⟩).fs ("d" ++ "/" ++ replaceSpaces (stripFileCol "File:a b.jpg"))
      = none :=
  ⟨(process_images_records_nonempty "t" 1
      (ApiResponse.withPages [⟨"File:a b.jpg", some [⟨some "u"⟩]⟩])
      (fun _ => NetResult.ok 4) ⟨[]⟩).1 ⟨"a_b.jpg", "u", 4⟩ (by decide),
   ((process_images_records_nonempty "t" 1 ApiResponse.noQuery
      (fun _ => NetResult.ok 0) ⟨[]⟩).2 "d" ⟨"File:a b.jpg", some [⟨some "u"⟩]⟩
      ⟨⟨[]⟩, [], 0, 0⟩ ⟨some "u"⟩ [] "u" (by decide) rfl rfl).1,
   ((process_images_records_nonempty "t" 1 ApiResponse.noQuery
      (fun _ => NetResult.ok 0) ⟨[]⟩).2 "d" ⟨"File:a b.jpg", some [⟨some "u"⟩]⟩
      ⟨⟨[]⟩, [], 0, 0⟩ ⟨some "u"⟩ [] "u" (by decide) rfl rfl).2⟩

/-- C4: the CLI max-count handling — a non-integer input defaults to 10; an
integer `n` is clamped to `min(max(1, n), 500)`, so nonpositive input yields
1, input above 500 yields 500, and any `n` in `[1, 500]` is used unchanged. -/
theorem parse_max_images_clamps :
    parse_max_images none = 10 ∧
    (∀ n : Int, n ≤ 0 → parse_max_images (some n) = 1) ∧
    (∀ n : Int, 1 ≤ n → n ≤ 500 → parse_max_images (some n) = n) ∧
    (∀ n : Int, 500 < n → parse_max_images (some n) = 500) := by
  refine ⟨rfl, ?_, ?_, ?_⟩ <;>
    intro n <;> intro _ <;> try intro _
  all_goals
    simp only [parse_max_images, min_def, max_def]
    repeat' split
  all_goals omega

/-- Witness for C4: the clamp at 0 (→1), in range (→42), and above 500
(→500). -/
theorem parse_max_images_clamps_witness :
    parse_max_images (some 0) = 1 ∧
    parse_max_images (some 42) = 42 ∧
    parse_max_images (some 501) = 500 :=
  ⟨parse_max_images_clamps.2.1 0 (by decide),
   parse_max_images_clamps.2.2.1 42 (by decide) (by decide),
   parse_max_images_clamps.2.2.2 501 (by decide)⟩

/-- C5 counterexample: a run that examines two candidates (both skipped for
an empty title) executes zero `time.sleep(1)` calls — no sleep occurs
between the first and the second candidate, contrary to the claim that one
time-unit elapses between every pair of consecutive candidates. -/
theorem no_sleep_between_skipped_candidates :
    (process_images "cats" 5 (ApiResponse.withPages [⟨"", none⟩, ⟨"", none⟩])
        (fun _ => NetResult.failBeforeOpen) ⟨[]⟩).examined = 2 ∧
    (process_images "cats" 5 (ApiResponse.withPages [⟨"", none⟩, ⟨"", none⟩])
        (fun _ => NetResult.failBeforeOpen) ⟨[]⟩).sleeps = 0 := by
  constructor <;> rfl

/-- C5 amended: a sleep of 1 time-unit occurs after a candidate if and only
if a download was attempted for it (title, imageinfo and url all present)
and the attempt either failed or was recorded as a non-empty success;
candidates skipped for a missing title or url, and reported successes
discarded as empty, `continue` past the sleep. -/
theorem sleep_after_attempted_candidates_only (dir : String) (r : SearchResult)
    (net : NetResult) (st : RunState) :
    (processCandidate dir r net st).sleeps
      = st.sleeps + (candidateSleeps r net).toNat :=
  processCandidate_sleeps dir r net st

/-- C9: `search_wikimedia` returns the empty sequence on a transport error
or a malformed (`'query'`-less) response rather than raising; and whenever
the search result sequence is empty, `process_images` returns a count of 0,
collects nothing, leaves the filesystem untouched and writes no report. -/
theorem search_failure_yields_empty_run :
    search_wikimedia ApiResponse.transportError = [] ∧
    search_wikimedia ApiResponse.noQuery = [] ∧
    (∀ (term : String) (maxImages : Nat) (resp : ApiResponse)
        (net : Nat → NetResult) (fs0 : FS),
        search_wikimedia resp = [] →
        (process_images term maxImages resp net fs0).count = 0 ∧
        (process_images term maxImages resp net fs0).downloaded = [] ∧
        (process_images term maxImages resp net fs0).fs = fs0 ∧
        (process_images term maxImages resp net fs0).report = none) := by
  refine ⟨rfl, rfl, ?_⟩
  intro term maxImages resp net fs0 hempty
  refine ⟨?_, ?_, ?_, ?_⟩ <;> simp [process_images, hempty]

/-- Witness for C9: a transport error produces an empty search and a run
that returns 0 over an initially empty filesystem. -/
theorem search_failure_yields_empty_run_witness :
    (process_images "cats" 10 ApiResponse.transportError
        (fun _ => NetResult.ok 4) ⟨[]⟩).count = 0 ∧
    (process_images "cats" 10 ApiResponse.transportError
        (fun _ => NetResult.ok 4) ⟨[]⟩).report = none :=
  ⟨(search_failure_yields_empty_run.2.2 "cats" 10 ApiResponse.transportError
      (fun _ => NetResult.ok 4) ⟨[]⟩ rfl).1,
   (search_failure_yields_empty_run.2.2 "cats" 10 ApiResponse.transportError
      (fun _ => NetResult.ok 4) ⟨[]⟩ rfl).2.2.2⟩

/-- C10: two candidates with distinct titles (`"File:a b.jpg"` and
`"File:a_b.jpg"`) derive the same safe filename `"a_b.jpg"`; both downloads
are written to the same path — the second (7 bytes) overwriting the first
(5 bytes) — yet a `DownloadRecord` is appended for each, so the run reports
two records with duplicate filenames while a single image file is left on
disk. -/
theorem duplicate_safe_filenames_overwrite :
    ("File:a b.jpg" : String) ≠ "File:a_b.jpg" ∧
    safeFilenameOf "File:a b.jpg" = safeFilenameOf "File:a_b.jpg" ∧
    (process_images "t" 5
        (ApiResponse.withPages
          [⟨"File:a b.jpg", some [⟨some "u1"⟩]⟩, ⟨"File:a_b.jpg", some [⟨some "u2"⟩]⟩])
        (fun i => if i = 0 then NetResult.ok 5 else NetResult.ok 7)
        ⟨[]⟩).downloaded.map (fun rec => rec.filename) = ["a_b.jpg", "a_b.jpg"] ∧
    (process_images "t" 5
        (ApiResponse.withPages
          [⟨"File:a b.jpg", some [⟨some "u1"⟩]⟩, ⟨"File:a_b.jpg", some [⟨some "u2"⟩]⟩])
        (fun i => if i = 0 then NetResult.ok 5 else NetResult.ok 7)
        ⟨[]⟩).downloaded.length = 2 ∧
    fsGet (process_images "t" 5
        (ApiResponse.withPages
          [⟨"File:a b.jpg", some [⟨some "u1"⟩]⟩, ⟨"File:a_b.jpg", some [⟨some "u2"⟩]⟩])
        (fun i => if i = 0 then NetResult.ok 5 else NetResult.ok 7)
        ⟨[]⟩).fs "downloads/t/a_b.jpg" = some (Entry.bin 7) ∧
    ((process_images "t" 5
        (ApiResponse.withPages
          [⟨"File:a b.jpg", some [⟨some "u1"⟩]⟩, ⟨"File:a_b.jpg", some [⟨some "u2"⟩]⟩])
        (fun i => if i = 0 then NetResult.ok 5 else NetResult.ok 7)
        ⟨[]⟩).fs.files.filter
          (fun q => !(q.1 == "downloads/t/download_report.md"))).length = 1 := by
  refine ⟨by decide, by decide, ?_, ?_, ?_, ?_⟩ <;> rfl

/-! ## Directory derivation (C6) -/

theorem spaceToUnderscore_inj (a b : Char) (ha : a ≠ '_') (hb : b ≠ '_')
    (h : spaceToUnderscore a = spaceToUnderscore b) : a = b := by
  unfold spaceToUnderscore at h
  by_cases h1 : a = ' '
  · by_cases h2 : b = ' '
    · rw [h1, h2]
    · rw [if_pos h1, if_neg h2] at h
      exact absurd h.symm hb
  · by_cases h2 : b = ' '
    · rw [if_neg h1, if_pos h2] at h
      exact absurd h ha
    · rw [if_neg h1, if_neg h2] at h
      exact h

theorem map_spaceToUnderscore_inj (l1 : List Char) : ∀ (l2 : List Char),
    '_' ∉ l1 → '_' ∉ l2 →
    l1.map spaceToUnderscore = l2.map spaceToUnderscore → l1 = l2 := by
  induction l1 with
  | nil =>
    intro l2 _ _ h
    cases l2 with
    | nil => rfl
    | cons b t => simp at h
  | cons a t ih =>
    intro l2 h1 h2 h
    cases l2 with
    | nil => simp at h
    | cons b t2 =>
      simp only [List.map_cons, List.cons.injEq] at h
      have ha : a ≠ '_' := fun hc => h1 (by simp [hc])
      have hb : b ≠ '_' := fun hc => h2 (by simp [hc])
      have hab := spaceToUnderscore_inj a b ha hb h.1
      have ht := ih t2 (fun hc => h1 (List.mem_cons_of_mem a hc))
        (fun hc => h2 (List.mem_cons_of_mem b hc)) h.2
      rw [hab, ht]

/-- C6 counterexample: the distinct search terms `"a b"` and `"a_b"` derive
the same download directory, so the term-to-directory mapping of
`process_images` is not injective. -/
theorem downloadDir_not_injective :
    downloadDirOf "a b" = downloadDirOf "a_b" ∧ ("a b" : String) ≠ "a_b" := by
  constructor <;> decide

/-- C6 amended: the directory mapping (spaces replaced by underscores, under
`downloads/`) is injective on search terms that contain no underscore; two
distinct terms can share a directory only when one already contains an
underscore where the other has a space. -/
theorem downloadDir_inj_on_underscore_free (t1 t2 : String)
    (h1 : '_' ∉ t1.data) (h2 : '_' ∉ t2.data)
    (heq : downloadDirOf t1 = downloadDirOf t2) : t1 = t2 := by
  unfold downloadDirOf replaceSpaces at heq
  have hd := congrArg String.data heq
  simp only [String.data_append] at hd
  have hmap : t1.data.map spaceToUnderscore = t2.data.map spaceToUnderscore :=
    List.append_cancel_left hd
  have := map_spaceToUnderscore_inj t1.data t2.data h1 h2 hmap
  cases t1
  cases t2
  exact congrArg String.mk this

/-- Witness for C6 (amended): applied to the underscore-free term `"a b"`
against itself. -/
theorem downloadDir_inj_on_underscore_free_witness :
    ('_' ∉ ("a b" : String).data) ∧ ("a b" : String) = "a b" :=
  ⟨by decide,
   downloadDir_inj_on_underscore_free "a b" "a b" (by decide) (by decide) rfl⟩

/-! ## Safe filenames (C7) -/

/-- Does the substring `"File:"` occur anywhere in the character list? -/
def hasFileCol : List Char → Bool
  | c1 :: c2 :: c3 :: c4 :: c5 :: rest =>
    if c1 = 'F' ∧ c2 = 'i' ∧ c3 = 'l' ∧ c4 = 'e' ∧ c5 = ':' then true
    else hasFileCol (c2 :: c3 :: c4 :: c5 :: rest)
  | _ => false

/-- Modelled from the spec: "the title with any leading `File:` prefix
stripped" — strip one `"File:"` prefix, only at the start. -/
def specStripLeading (t : String) : String :=
  if t.data.take 5 = ['F', 'i', 'l', 'e', ':'] then ⟨t.data.drop 5⟩ else t

/-- Modelled from the spec: the safe filename as the spec words it — the
title with a leading `File:` prefix stripped, then spaces replaced by
underscores. -/
def specSafeFilenameOf (t : String) : String :=
  replaceSpaces (specStripLeading t)

theorem removeFileCol_of_not_has :
    ∀ (l : List Char), hasFileCol l = false → removeFileCol l = l
  | [], _ => rfl
  | [_], _ => rfl
  | [_, _], _ => rfl
  | [_, _, _], _ => rfl
  | [_, _, _, _], _ => rfl
  | c1 :: c2 :: c3 :: c4 :: c5 :: rest, h => by
    rw [hasFileCol] at h
    rw [removeFileCol]
    by_cases hc : c1 = 'F' ∧ c2 = 'i' ∧ c3 = 'l' ∧ c4 = 'e' ∧ c5 = ':'
    · rw [if_pos hc] at h
      exact absurd h (by simp)
    · rw [if_neg hc] at h
      rw [if_neg hc]
      rw [removeFileCol_of_not_has (c2 :: c3 :: c4 :: c5 :: rest) h]

/-- C7 counterexample: for the candidate title `"File:a File:b.jpg"` the
code removes every `"File:"` occurrence, not only a leading prefix: the run
writes the download to `downloads/t/a_b.jpg`, not to the path derived by the
spec's prefix-only rule (`a_File:b.jpg`). -/
theorem safeFilename_strips_all_occurrences :
    safeFilenameOf "File:a File:b.jpg" = "a_b.jpg" ∧
    specSafeFilenameOf "File:a File:b.jpg" = "a_File:b.jpg" ∧
    safeFilenameOf "File:a File:b.jpg" ≠ specSafeFilenameOf "File:a File:b.jpg" ∧
    fsGet (process_images "t" 5
        (ApiResponse.withPages [⟨"File:a File:b.jpg", some [⟨some "u"⟩]⟩])
        (fun _ => NetResult.ok 3) ⟨[]⟩).fs "downloads/t/a_b.jpg"
      = some (Entry.bin 3) ∧
    fsGet (process_images "t" 5
        (ApiResponse.withPages [⟨"File:a File:b.jpg", some [⟨some "u"⟩]⟩])
        (fun _ => NetResult.ok 3) ⟨[]⟩).fs "downloads/t/a_File:b.jpg"
      = none := by
  refine ⟨by decide, by decide, by decide, ?_, ?_⟩ <;> rfl

/-- C7 amended: the on-disk safe filename equals the title with every
occurrence of the substring `"File:"` removed and every space replaced by
an underscore; this agrees with the spec's prefix-only rule exactly when
`"File:"` does not occur in the title beyond a leading prefix. -/
theorem safeFilename_eq_spec_when_only_leading (title : String)
    (h : hasFileCol (specStripLeading title).data = false) :
    safeFilenameOf title = specSafeFilenameOf title := by
  unfold safeFilenameOf specSafeFilenameOf specStripLeading
  unfold specStripLeading at h
  by_cases hp : title.data.take 5 = ['F', 'i', 'l', 'e', ':']
  · rw [if_pos hp]
    rw [if_pos hp] at h
    congr 1
    unfold stripFileCol
    rcases hl : title.data with _ | ⟨c1, _ | ⟨c2, _ | ⟨c3, _ | ⟨c4, _ | ⟨c5, rest⟩⟩⟩⟩⟩ <;>
      rw [hl] at hp <;> simp only [List.take] at hp
    · exact absurd hp (by simp)
    · exact absurd hp (by simp)
    · exact absurd hp (by simp)
    · exact absurd hp (by simp)
    · exact absurd hp (by simp)
    · rw [hl] at h
      simp only [List.cons.injEq] at hp
      obtain ⟨e1, e2, e3, e4, e5, -⟩ := hp
      rw [removeFileCol, if_pos ⟨e1, e2, e3, e4, e5⟩]
      simp only [List.drop] at h ⊢
      exact congrArg _ (removeFileCol_of_not_has rest (by simpa using h))
  · rw [if_neg hp]
    rw [if_neg hp] at h
    congr 1
    unfold stripFileCol
    rw [removeFileCol_of_not_has title.data h]

/-- Witness for C7 (amended): for the title `"File:A B.jpg"`, whose only
`"File:"` occurrence is the leading prefix, code and spec agree on
`"A_B.jpg"`. -/
theorem safeFilename_eq_spec_when_only_leading_witness :
    hasFileCol (specStripLeading "File:A B.jpg").data = false ∧
    safeFilenameOf "File:A B.jpg" = specSafeFilenameOf "File:A B.jpg" :=
  ⟨by decide, safeFilename_eq_spec_when_only_leading "File:A B.jpg" (by decide)⟩

/-! ## The report writer (C8) -/

/-- One `##` subsection of the report: the record's filename as the heading,
then its source URL and its size. -/
def reportSection (rec : DownloadRecord) : String :=
  "## " ++ rec.filename ++ "\n" ++
  "- Source: " ++ rec.url ++ "\n" ++
  "- Size: " ++ formatMB rec.size ++ "\n\n"

theorem report_body_eq_sections : ∀ (l : List DownloadRecord),
    report_body l = (l.map reportSection).foldr (fun a b => a ++ b) ""
  | [] => rfl
  | r :: rest => by
    simp only [List.map_cons, List.foldr_cons]
    rw [← report_body_eq_sections rest]
    rfl

theorem finishRun_report_isSome (dir : String) (fin : RunState) :
    (finishRun dir fin).report.isSome ↔ (finishRun dir fin).downloaded ≠ [] := by
  unfold finishRun
  by_cases h : fin.downloaded.isEmpty
  · rw [List.isEmpty_iff] at h
    simp [h]
  · rw [List.isEmpty_iff] at h
    simp [h]

theorem finishRun_report_some (dir : String) (fin : RunState) (s : String)
    (hs : (finishRun dir fin).report = some s) :
    s = generate_report (finishRun dir fin).downloaded ∧
    fsGet (finishRun dir fin).fs (dir ++ "/download_report.md")
      = some (Entry.text s) := by
  unfold finishRun at hs ⊢
  by_cases h : fin.downloaded.isEmpty
  · simp [h] at hs
  · simp only [h, Bool.false_eq_true, if_false] at hs ⊢
    simp only [Option.some.injEq] at hs
    subst hs
    exact ⟨rfl, fsGet_fsSet _ _ _⟩

/-- C8: a markdown report is written into the download directory iff at
least one download succeeded; the written report is a pure function of the
collected record sequence — a top-level heading followed by one `##`
subsection per record, in record order, each giving the record's filename,
source URL and size — and it is stored at the report path, overwriting
whatever was there. -/
theorem process_images_report_spec (term : String) (maxImages : Nat)
    (resp : ApiResponse) (net : Nat → NetResult) (fs0 : FS) :
    ((process_images term maxImages resp net fs0).report.isSome
       ↔ (process_images term maxImages resp net fs0).downloaded ≠ []) ∧
    (∀ s, (process_images term maxImages resp net fs0).report = some s →
        s = generate_report (process_images term maxImages resp net fs0).downloaded ∧
        fsGet (process_images term maxImages resp net fs0).fs
          (downloadDirOf term ++ "/download_report.md") = some (Entry.text s)) ∧
    generate_report (process_images term maxImages resp net fs0).downloaded
      = "# Downloaded Images Report\n\n"
        ++ ((process_images term maxImages resp net fs0).downloaded.map
            reportSection).foldr (fun a b => a ++ b) "" := by
  refine ⟨?_, ?_, ?_⟩
  · by_cases hres : (search_wikimedia resp).isEmpty
    · simp [process_images, hres]
    · simp only [process_images, hres, Bool.false_eq_true, if_false]
      exact finishRun_report_isSome _ _
  · intro s hs
    by_cases hres : (search_wikimedia resp).isEmpty
    · simp [process_images, hres] at hs
    · simp only [process_images, hres, Bool.false_eq_true, if_false] at hs ⊢
      exact finishRun_report_some _ _ s hs
  · rw [generate_report, report_body_eq_sections]

/-- Witness for C8: one successful 4-byte download produces a report with
exactly one subsection, stored at the report path. -/
theorem process_images_report_spec_witness :
    (process_images "t" 1 (ApiResponse.withPages [⟨"File:a b.jpg", some [⟨some "u"⟩]⟩])
        (fun _ => NetResult.ok 4) ⟨[]⟩).report
      = some "# Downloaded Images Report\n\n## a_b.jpg\n- Source: u\n- Size: 0.0 MB\n\n" ∧
    ("# Downloaded Images Report\n\n## a_b.jpg\n- Source: u\n- Size: 0.0 MB\n\n" : String)
      = generate_report (process_images "t" 1
          (ApiResponse.withPages [⟨"File:a b.jpg", some [⟨some "u"⟩]⟩])
          (fun _ => NetResult.ok 4) ⟨[]⟩).downloaded ∧
    fsGet (process_images "t" 1
        (ApiResponse.withPages [⟨"File:a b.jpg", some [⟨some "u"⟩]⟩])
        (fun _ => NetResult.ok 4) ⟨[]⟩).fs
      (downloadDirOf "t" ++ "/download_report.md")
      = some (Entry.text
          "# Downloaded Images Report\n\n## a_b.jpg\n- Source: u\n- Size: 0.0 MB\n\n") :=
  ⟨by rfl,
   ((process_images_report_spec "t" 1
      (ApiResponse.withPages [⟨"File:a b.jpg", some [⟨some "u"⟩]⟩])
      (fun _ => NetResult.ok 4) ⟨[]⟩).2.1
      "# Downloaded Images Report\n\n## a_b.jpg\n- Source: u\n- Size: 0.0 MB\n\n"
      (by rfl)).1,
   ((process_images_report_spec "t" 1
      (ApiResponse.withPages [⟨"File:a b.jpg", some [⟨some "u"⟩]⟩])
      (fun _ => NetResult.ok 4) ⟨[]⟩).2.1
      "# Downloaded Images Report\n\n## a_b.jpg\n- Source: u\n- Size: 0.0 MB\n\n"
      (by rfl)).2⟩

end WikimediaDownloader
